import Mathlib

/-!
Verification of the core simulation of `src/game.py` (a 2D platformer).

The shallow embedding below translates the simulation-relevant parts of the
source: pygame rectangles become an integer `Rect`, pygame's `colliderect`
becomes the strict-overlap test it implements, Python floats (velocities)
become exact rationals (`Frac`), Python `int(...)` truncation becomes
`Frac.trunc`, and Python floor division `//` becomes `Int.fdiv`.  Rendering-only code (surfaces,
drawing, fonts) is omitted; fields that rendering alone consumes
(`facing_right`, `walk_frame`) are kept because the simulation mutates them.
-/

namespace PixelQuest

/-- An axis-aligned rectangle with integer coordinates, as pygame's `Rect`:
`x`,`y` is the top-left corner, `w`,`h` the size. -/
structure Rect where
  x : Int
  y : Int
  w : Int
  h : Int
deriving DecidableEq, Repr

/-- pygame `Rect.colliderect`: true exactly when the two rectangles share
interior area (touching edges do not collide — the comparisons are strict). -/
def Rect.colliderect (a b : Rect) : Bool :=
  decide (a.x < b.x + b.w) && decide (b.x < a.x + a.w) &&
  decide (a.y < b.y + b.h) && decide (b.y < a.y + a.h)

/-- pygame `Rect.centerx` = `x + w // 2` (floor division; `w > 0` here). -/
def Rect.centerx (r : Rect) : Int := r.x + Int.fdiv r.w 2

/-- Exact rational arithmetic used to model Python floats (the velocities).
A value `n/d` is kept as an unnormalised numerator/denominator pair; every
value the game computes keeps `den` positive.  All operations the source
performs on velocities (add, multiply, negate, absolute value, comparisons,
`int(...)` truncation) are exact here. -/
structure Frac where
  num : Int
  den : Int
deriving DecidableEq, Repr

/-- Embed an integer constant (Python int literals assigned to velocity). -/
def Frac.ofInt (n : Int) : Frac := { num := n, den := 1 }

def Frac.add (a b : Frac) : Frac :=
  { num := a.num * b.den + b.num * a.den, den := a.den * b.den }

def Frac.mul (a b : Frac) : Frac :=
  { num := a.num * b.num, den := a.den * b.den }

/-- Python `abs` (denominators are positive for all values the game makes). -/
def Frac.abs (a : Frac) : Frac := { num := |a.num|, den := a.den }

/-- Python `int(...)` on a float: truncation toward zero (`Int.tdiv` is
T-division, matching Python for positive denominators). -/
def Frac.trunc (a : Frac) : Int := Int.tdiv a.num a.den

instance : LT Frac := ⟨fun a b => a.num * b.den < b.num * a.den⟩

instance (a b : Frac) : Decidable (a < b) :=
  inferInstanceAs (Decidable (a.num * b.den < b.num * a.den))

/-- The per-tick keyboard snapshot the game reads (`pygame.key.get_pressed()`),
restricted to the keys `Player.handle_input` consumes. -/
structure Keys where
  left : Bool
  right : Bool
  a : Bool
  d : Bool
  space : Bool
  up : Bool
deriving DecidableEq, Repr

/-- No key held. -/
def Keys.idle : Keys :=
  { left := false, right := false, a := false, d := false,
    space := false, up := false }

/-- `Player` state (game.py lines 126-144); the 32×48 rectangle plus the
simulation fields.  `vel_x`, `vel_y` are Python floats, modelled as exact
rationals (`Frac`). -/
structure Player where
  rect : Rect
  vel_x : Frac
  vel_y : Frac
  on_ground : Bool
  max_health : Int
  health : Int
  score : Int
  invincible_timer : Int
  facing_right : Bool
  walk_frame : Int
deriving DecidableEq, Repr

/-- `Player.__init__(x, y)`. -/
def Player.init (x y : Int) : Player :=
  { rect := { x := x, y := y, w := 32, h := 48 }
    vel_x := Frac.ofInt 0, vel_y := Frac.ofInt 0, on_ground := false
    max_health := 100, health := 100, score := 0
    invincible_timer := 0, facing_right := true, walk_frame := 0 }

/-- `Player.handle_input(keys)` (game.py lines 168-191): LEFT/A branch first,
then RIGHT/D, else friction with snap-to-zero below 0.5; SPACE/UP jumps only
when grounded; the cosmetic walk counter advances when moving on the ground
(checked after the jump may have cleared `on_ground`, as in the source). -/
def Player.handle_input (keys : Keys) (p : Player) : Player :=
  let moving := keys.left || keys.a || keys.right || keys.d
  let p :=
    if keys.left || keys.a then
      { p with vel_x := Frac.ofInt (-4), facing_right := false }
    else if keys.right || keys.d then
      { p with vel_x := Frac.ofInt 4, facing_right := true }
    else
      let v := p.vel_x.mul { num := 3, den := 4 }
      { p with vel_x := if v.abs < { num := 1, den := 2 } then Frac.ofInt 0 else v }
  let p :=
    if (keys.space || keys.up) && p.on_ground then
      { p with vel_y := Frac.ofInt (-14), on_ground := false }
    else p
  if moving && p.on_ground then { p with walk_frame := p.walk_frame + 1 } else p

/-- `Player.apply_gravity` (lines 193-198): `vel_y += 0.6` (= 3/5), capped at
the terminal velocity 20. -/
def Player.apply_gravity (p : Player) : Player :=
  let v := p.vel_y.add { num := 3, den := 5 }
  { p with vel_y := if Frac.ofInt 20 < v then Frac.ofInt 20 else v }

/-- The body of the horizontal resolution loop of `move_and_collide`
(lines 204-210): on contact, snap the leading edge in the direction of travel
flush against the platform and zero `vel_x` (the source zeroes `vel_x` on any
contact, even when `vel_x == 0`, but moves the rectangle only for a nonzero
sign). -/
def Player.resolveHorizontal (p : Player) (plat : Rect) : Player :=
  if p.rect.colliderect plat then
    let r :=
      if Frac.ofInt 0 < p.vel_x then { p.rect with x := plat.x - p.rect.w }
      else if p.vel_x < Frac.ofInt 0 then { p.rect with x := plat.x + plat.w }
      else p.rect
    { p with rect := r, vel_x := Frac.ofInt 0 }
  else p

/-- The body of the vertical resolution loop of `move_and_collide`
(lines 215-223): falling contact lands on top (grounding the player), rising
contact hits the ceiling; contact with `vel_y == 0` does nothing. -/
def Player.resolveVertical (p : Player) (plat : Rect) : Player :=
  if p.rect.colliderect plat then
    if Frac.ofInt 0 < p.vel_y then
      { p with rect := { p.rect with y := plat.y - p.rect.h },
               vel_y := Frac.ofInt 0, on_ground := true }
    else if p.vel_y < Frac.ofInt 0 then
      { p with rect := { p.rect with y := plat.y + plat.h },
               vel_y := Frac.ofInt 0 }
    else p
  else p

/-- `Player.move_and_collide(platforms)` (lines 200-223): move horizontally by
the truncated velocity and resolve against every platform in iteration order,
then move vertically and resolve again, setting `on_ground` only on a
downward resolution this tick. -/
def Player.move_and_collide (platforms : List Rect) (p : Player) : Player :=
  let p := { p with rect := { p.rect with x := p.rect.x + p.vel_x.trunc } }
  let p := platforms.foldl Player.resolveHorizontal p
  let p := { p with on_ground := false }
  let p := { p with rect := { p.rect with y := p.rect.y + p.vel_y.trunc } }
  platforms.foldl Player.resolveVertical p

/-- `Player.take_damage(amount)` (lines 225-232): no-op while invincible,
else subtract, clamp at 0, and restart the 90-tick invincibility window. -/
def Player.take_damage (amount : Int) (p : Player) : Player :=
  if p.invincible_timer > 0 then p
  else
    let h := p.health - amount
    { p with health := if h < 0 then 0 else h, invincible_timer := 90 }

/-- `Player.update(keys, platforms)` (lines 234-246): input, gravity, motion
with collision, invincibility countdown, horizontal screen clamp to [0,800]. -/
def Player.update (keys : Keys) (platforms : List Rect) (p : Player) : Player :=
  let p := p.handle_input keys
  let p := p.apply_gravity
  let p := p.move_and_collide platforms
  let p :=
    if p.invincible_timer > 0 then
      { p with invincible_timer := p.invincible_timer - 1 }
    else p
  let p :=
    if p.rect.x < 0 then { p with rect := { p.rect with x := 0 } } else p
  if p.rect.x + p.rect.w > 800 then
    { p with rect := { p.rect with x := 800 - p.rect.w } }
  else p

/-- `Player.is_dead` (lines 248-249). -/
def Player.is_dead (p : Player) : Bool := decide (p.health ≤ 0)

/-- `Enemy` state (game.py lines 72-82): a 36×42 rectangle, walking speed
`vel_x` (initialised to 2) and the patrol bounds. -/
structure Enemy where
  rect : Rect
  vel_x : Int
  patrol_min : Int
  patrol_max : Int
deriving DecidableEq, Repr

/-- `Enemy.__init__(x, y, patrol_min, patrol_max)`: the constructor stores its
arguments without any validation. -/
def Enemy.init (x y patrol_min patrol_max : Int) : Enemy :=
  { rect := { x := x, y := y, w := 36, h := 42 }
    vel_x := 2, patrol_min := patrol_min, patrol_max := patrol_max }

/-- `Enemy.update(platforms)` (lines 104-119): advance by `vel_x`; if the left
edge reaches `patrol_min` or the right edge reaches `patrol_max`, negate the
velocity and nudge by twice the new velocity; then probe one pixel down and
snap the bottom to the top of the first colliding platform (iteration order),
else restore the vertical position. -/
def Enemy.update (platforms : List Rect) (e : Enemy) : Enemy :=
  let e := { e with rect := { e.rect with x := e.rect.x + e.vel_x } }
  let e :=
    if e.rect.x ≤ e.patrol_min ∨ e.rect.x + e.rect.w ≥ e.patrol_max then
      let v := -e.vel_x
      { e with vel_x := v, rect := { e.rect with x := e.rect.x + v * 2 } }
    else e
  let probe := { e.rect with y := e.rect.y + 1 }
  match platforms.find? (fun plat => probe.colliderect plat) with
  | some plat => { e with rect := { probe with y := plat.y - probe.h } }
  | none => e

/-- Tabulation of the float expression on game.py line 65,
`int(3 * pygame.math.Vector2(0, 1).rotate(t * 6).y)`: rotating the unit
vector (0,1) by `6t` degrees gives `y = cos(6t°)`, so this is
`3·cos(6·t degrees)` truncated toward zero — periodic in `t` with period 60.
The sixty entries list those truncated values for `t = 0,…,59` (pygame
special-cases the right angles 0°/90°/180°/270°, so the entries at
`t = 0,15,30,45` are exact; every other entry is more than 10⁻² away from the
nearest truncation boundary, far beyond double rounding error). -/
def bobOffset (t : Nat) : Int :=
  (List.getD
    [3, 2, 2, 2, 2, 2, 2, 2, 2, 1, 1, 1, 0, 0, 0, 0, 0, 0, 0, -1,
     -1, -1, -2, -2, -2, -2, -2, -2, -2, -2, -3, -2, -2, -2, -2, -2, -2, -2,
     -2, -1, -1, -1, 0, 0, 0, 0, 0, 0, 0, 1, 1, 1, 2, 2, 2, 2, 2, 2, 2, 2]
    (t % 60) 0)

/-- `Coin` state (game.py lines 53-60): a 20×20 rectangle and the bob timer
(`random.randint(0, 60)` at construction — passed in explicitly here). -/
structure Coin where
  rect : Rect
  bob_timer : Nat
deriving DecidableEq, Repr

/-- `Coin.__init__(x, y)` with the bob-timer stagger made an explicit
argument: the rectangle is 20×20 centred at `(x, y)`. -/
def Coin.init (x y : Int) (bob : Nat) : Coin :=
  { rect := { x := x - 10, y := y - 10, w := 20, h := 20 }, bob_timer := bob }

/-- `Coin.update` (lines 62-66): advance the timer, then
`centery += offset // 6` with Python floor division (`Int.fdiv`); moving the
top by the same delta moves the centre by it, the height being fixed. -/
def Coin.update (c : Coin) : Coin :=
  let t := c.bob_timer + 1
  { c with bob_timer := t,
           rect := { c.rect with y := c.rect.y + Int.fdiv (bobOffset t) 6 } }

/-- The four phases of the main loop's state machine (game.py line 427). -/
inductive GameState
  | start
  | playing
  | game_over
  | win
deriving DecidableEq, Repr

/-- The mutable state of `main`'s loop: phase, the level entities and the
recorded `total_coins`. -/
structure World where
  state : GameState
  player : Player
  platforms : List Rect
  coins : List Coin
  enemies : List Enemy
  total_coins : Nat
deriving DecidableEq, Repr

/-- The platform rectangles of `build_level` (lines 354-372): the ground strip
followed by the ten floating platforms, in insertion order. -/
def levelPlatforms : List Rect :=
  [⟨0, 560, 800, 40⟩,
   ⟨100, 460, 140, 18⟩, ⟨280, 380, 120, 18⟩, ⟨430, 460, 110, 18⟩,
   ⟨570, 350, 130, 18⟩, ⟨680, 430, 100, 18⟩, ⟨200, 280, 100, 18⟩,
   ⟨350, 210, 120, 18⟩, ⟨520, 260, 90, 18⟩, ⟨620, 170, 110, 18⟩,
   ⟨0, 300, 80, 18⟩]

/-- The thirteen coin centre positions of `build_level` (lines 375-380). -/
def coinPositions : List (Int × Int) :=
  [(170, 435), (310, 355), (490, 435), (620, 320),
   (740, 405), (250, 255), (410, 185), (570, 235),
   (670, 145), (40, 275), (400, 535), (600, 535),
   (200, 535)]

/-- The five enemy tuples `(x, y, patrol_min, patrol_max)` of `build_level`
(lines 385-391). -/
def enemyData : List (Int × Int × Int × Int) :=
  [(110, 518, 50, 260), (400, 518, 300, 700), (283, 338, 280, 400),
   (571, 308, 570, 700), (203, 238, 200, 300)]

/-- `build_level()` (lines 348-396) together with the restart bookkeeping of
`main` (lines 446-448): fresh entities, `total_coins = len(coins)` and the
phase set to Playing.  The coins' random bob stagger is passed in as `bobs`
(the i-th coin gets `bobs i`), keeping construction deterministic. -/
def build_level (bobs : Nat → Nat) : World :=
  let coins := coinPositions.enum.map (fun p => Coin.init p.2.1 p.2.2 (bobs p.1))
  { state := GameState.playing
    player := Player.init 60 490
    platforms := levelPlatforms
    coins := coins
    enemies := enemyData.map (fun t => Enemy.init t.1 t.2.1 t.2.2.1 t.2.2.2)
    total_coins := coins.length }

/-- The Playing-phase body of the main loop (lines 451-473): player update,
enemy updates, coin updates, coin collection with `spritecollide(…, True)`
(score `+10` per collected coin), the empty-coins → Win check, enemy-contact
damage via `spritecollideany`, the fall-off-screen rule (`rect.top > 650`
forces health to 0), and finally the death check → GameOver. -/
def tickPlaying (keys : Keys) (w : World) : World :=
  let player := w.player.update keys w.platforms
  let enemies := w.enemies.map (Enemy.update w.platforms)
  let coins := w.coins.map Coin.update
  let collected := coins.filter (fun c => player.rect.colliderect c.rect)
  let coins := coins.filter (fun c => !(player.rect.colliderect c.rect))
  let player := { player with score := player.score + collected.length * 10 }
  let state := if coins.length = 0 then GameState.win else w.state
  let player :=
    if enemies.any (fun e => player.rect.colliderect e.rect) then
      player.take_damage 20
    else player
  let player :=
    if player.rect.y > (600 + 50 : Int) then { player with health := 0 }
    else player
  let state := if player.is_dead then GameState.game_over else state
  { w with player := player, coins := coins, enemies := enemies, state := state }

/-- One iteration of the update section of `main`'s loop: the simulation
advances only while the phase is Playing (line 451); in every other phase the
world is untouched by the update section. -/
def tick (keys : Keys) (w : World) : World :=
  if w.state = GameState.playing then tickPlaying keys w else w

/-- The coin counter the HUD reports (line 491): `total_coins - len(coins)`. -/
def collectedCount (w : World) : Nat := w.total_coins - w.coins.length

/-- The claimed health invariant: `0 ≤ health ≤ max_health` and
`max_health = 100`. -/
def healthInv (p : Player) : Prop :=
  0 ≤ p.health ∧ p.health ≤ p.max_health ∧ p.max_health = 100

/-- The run invariant implicit in `main`: the score reads 10 points per coin
removed so far. -/
def scoreInv (w : World) : Prop :=
  w.coins.length ≤ w.total_coins ∧
    w.player.score = 10 * ((w.total_coins : Int) - (w.coins.length : Int))

/-- A Playing world whose single remaining coin overlaps the player this
tick, while the player (at full health) also stands on an enemy: used to
exercise the coins-empty → Win transition. -/
def lastCoinAliveWorld : World :=
  { state := GameState.playing
    player := Player.init 100 100
    platforms := []
    coins := [Coin.init 110 110 0]
    enemies := [Enemy.init 90 100 0 400]
    total_coins := 13 }

/-- The same world, but the player has 20 health left, so the enemy contact
on the collection tick is fatal. -/
def lastCoinFatalWorld : World :=
  { lastCoinAliveWorld with player :=
      { Player.init 100 100 with health := 20 } }

/-- The inductive invariant for a patrolling enemy of the built level: speed
±2, the 36-pixel sprite width, a patrol range wider than 40 pixels, and the
rectangle strictly inside the range. -/
def enemyPatrolInv (e : Enemy) : Prop :=
  (e.vel_x = 2 ∨ e.vel_x = -2) ∧ e.rect.w = 36 ∧
    e.patrol_min + 40 < e.patrol_max ∧
    e.patrol_min < e.rect.x ∧ e.rect.x + 36 < e.patrol_max

/-! ### Helper lemmas -/

theorem colliderect_iff (a b : Rect) :
    a.colliderect b = true ↔
      a.x < b.x + b.w ∧ b.x < a.x + a.w ∧ a.y < b.y + b.h ∧ b.y < a.y + a.h := by
  simp [Rect.colliderect, and_assoc]

theorem foldl_fixed {α β : Type} (g : α → β) (f : α → Rect → α)
    (hf : ∀ a r, g (f a r) = g a) :
    ∀ (l : List Rect) (a : α), g (l.foldl f a) = g a := by
  intro l
  induction l with
  | nil => intro a; rfl
  | cons r t ih => intro a; rw [List.foldl_cons, ih, hf]

theorem resolveHorizontal_health (p : Player) (r : Rect) :
    (p.resolveHorizontal r).health = p.health := by
  unfold Player.resolveHorizontal; split_ifs <;> rfl

theorem resolveVertical_health (p : Player) (r : Rect) :
    (p.resolveVertical r).health = p.health := by
  unfold Player.resolveVertical; split_ifs <;> rfl

theorem resolveHorizontal_max_health (p : Player) (r : Rect) :
    (p.resolveHorizontal r).max_health = p.max_health := by
  unfold Player.resolveHorizontal; split_ifs <;> rfl

theorem resolveVertical_max_health (p : Player) (r : Rect) :
    (p.resolveVertical r).max_health = p.max_health := by
  unfold Player.resolveVertical; split_ifs <;> rfl

theorem resolveHorizontal_score (p : Player) (r : Rect) :
    (p.resolveHorizontal r).score = p.score := by
  unfold Player.resolveHorizontal; split_ifs <;> rfl

theorem resolveVertical_score (p : Player) (r : Rect) :
    (p.resolveVertical r).score = p.score := by
  unfold Player.resolveVertical; split_ifs <;> rfl

theorem move_and_collide_health (l : List Rect) (p : Player) :
    (p.move_and_collide l).health = p.health := by
  unfold Player.move_and_collide
  rw [foldl_fixed Player.health Player.resolveVertical resolveVertical_health,
    foldl_fixed Player.health Player.resolveHorizontal resolveHorizontal_health]

theorem move_and_collide_max_health (l : List Rect) (p : Player) :
    (p.move_and_collide l).max_health = p.max_health := by
  unfold Player.move_and_collide
  rw [foldl_fixed Player.max_health Player.resolveVertical resolveVertical_max_health,
    foldl_fixed Player.max_health Player.resolveHorizontal resolveHorizontal_max_health]

theorem move_and_collide_score (l : List Rect) (p : Player) :
    (p.move_and_collide l).score = p.score := by
  unfold Player.move_and_collide
  rw [foldl_fixed Player.score Player.resolveVertical resolveVertical_score,
    foldl_fixed Player.score Player.resolveHorizontal resolveHorizontal_score]

theorem handle_input_health (keys : Keys) (p : Player) :
    (p.handle_input keys).health = p.health := by
  simp only [Player.handle_input]; split_ifs <;> rfl

theorem handle_input_max_health (keys : Keys) (p : Player) :
    (p.handle_input keys).max_health = p.max_health := by
  simp only [Player.handle_input]; split_ifs <;> rfl

theorem handle_input_score (keys : Keys) (p : Player) :
    (p.handle_input keys).score = p.score := by
  simp only [Player.handle_input]; split_ifs <;> rfl

theorem update_health (keys : Keys) (l : List Rect) (p : Player) :
    (p.update keys l).health = p.health := by
  simp only [Player.update]
  split_ifs <;>
    simp [move_and_collide_health, handle_input_health, Player.apply_gravity]

theorem update_max_health (keys : Keys) (l : List Rect) (p : Player) :
    (p.update keys l).max_health = p.max_health := by
  simp only [Player.update]
  split_ifs <;>
    simp [move_and_collide_max_health, handle_input_max_health,
      Player.apply_gravity]

theorem update_score (keys : Keys) (l : List Rect) (p : Player) :
    (p.update keys l).score = p.score := by
  simp only [Player.update]
  split_ifs <;>
    simp [move_and_collide_score, handle_input_score, Player.apply_gravity]

theorem take_damage_max_health (amount : Int) (p : Player) :
    (p.take_damage amount).max_health = p.max_health := by
  unfold Player.take_damage; split_ifs <;> rfl

theorem take_damage_score (amount : Int) (p : Player) :
    (p.take_damage amount).score = p.score := by
  unfold Player.take_damage; split_ifs <;> rfl

/-! ### C1 — input precedence when left and right are both held -/

/-- C1, counterexample: with LEFT and RIGHT both held, `handle_input` takes
the `if` (left) branch first, so the horizontal velocity becomes −SPEED = −4,
not +SPEED = +4 as the claim states. -/
theorem handle_input_both_held_goes_left :
    (Player.handle_input { Keys.idle with left := true, right := true }
        (Player.init 60 490)).vel_x = Frac.ofInt (-4) ∧
      ¬ (Player.handle_input { Keys.idle with left := true, right := true }
        (Player.init 60 490)).vel_x = Frac.ofInt 4 := by
  constructor <;> decide

/-- C1, amended: left takes priority.  Whenever LEFT (or A) is held — in
particular when RIGHT is held simultaneously — `handle_input` sets the
horizontal velocity to −SPEED = −4 and faces the player left. -/
theorem handle_input_left_priority (keys : Keys) (p : Player)
    (h : keys.left = true ∨ keys.a = true) :
    (p.handle_input keys).vel_x = Frac.ofInt (-4) ∧
      (p.handle_input keys).facing_right = false := by
  have hla : (keys.left || keys.a) = true := by
    rcases h with h | h <;> simp [h]
  unfold Player.handle_input
  simp only [hla, Bool.true_or, if_true]
  split_ifs <;> exact ⟨rfl, rfl⟩

/-- C1 witness: the amended theorem applied with both directions held. -/
theorem handle_input_left_priority_witness :
    ({ Keys.idle with left := true, right := true } : Keys).left = true ∧
      (Player.handle_input { Keys.idle with left := true, right := true }
        (Player.init 60 490)).vel_x = Frac.ofInt (-4) := by
  refine ⟨rfl, ?_⟩
  exact (handle_input_left_priority
    { Keys.idle with left := true, right := true }
    (Player.init 60 490) (Or.inl rfl)).1

/-! ### C6 — Enemy construction with patrol_min ≥ patrol_max -/

/-- C6, counterexample: `Enemy.__init__` performs no validation, so
constructing an enemy with `patrol_min = 10 ≥ 5 = patrol_max` succeeds and
yields an ordinary enemy holding those bounds — it does not report an
error. -/
theorem enemy_init_invalid_bounds_constructs :
    (10 : Int) ≥ 5 ∧
      Enemy.init 0 0 10 5 =
        { rect := { x := 0, y := 0, w := 36, h := 42 }, vel_x := 2,
          patrol_min := 10, patrol_max := 5 } := by
  exact ⟨by norm_num, rfl⟩

/-- C6, amended: `Enemy.__init__` never fails; for every configuration with
`patrol_min ≥ patrol_max` it still constructs an enemy that stores the given
coordinates and bounds verbatim, with walking speed 2. -/
theorem enemy_init_no_validation (x y pmin pmax : Int) (_h : pmax ≤ pmin) :
    Enemy.init x y pmin pmax =
      { rect := { x := x, y := y, w := 36, h := 42 }, vel_x := 2,
        patrol_min := pmin, patrol_max := pmax } := rfl

/-- C6 witness: the amended theorem at the concrete invalid pair (10, 5). -/
theorem enemy_init_no_validation_witness :
    (5 : Int) ≤ 10 ∧
      Enemy.init 0 0 10 5 =
        { rect := { x := 0, y := 0, w := 36, h := 42 }, vel_x := 2,
          patrol_min := 10, patrol_max := 5 } :=
  ⟨by norm_num, enemy_init_no_validation 0 0 10 5 (by norm_num)⟩

/-! ### C7 — coin bobbing -/

set_option maxRecDepth 100000 in
/-- C7: the first half of the claim holds — each `Coin.update` advances the
bob phase by exactly 1 — but the bounded-amplitude consequence fails: the
source accumulates `offset // 6` into `centery` instead of applying the
±3-pixel offset to a fixed base, and since `offset // 6` is −1 for 23 of
every 60 phases and 0 otherwise (Python floor division of −3…3 by 6), the
centre drifts upward without bound.  Concretely, the coin spawned at
(170, 435) with bob phase 0 has, after 600 ticks, top `y` 425 − 230 = 195,
i.e. centre 205 — 230 pixels above its spawn centre, far outside any ~3 pixel
amplitude, contradicting the source's own "gentle up-down bobbing" /
"small, smooth motion" comments. -/
theorem coin_update_drifts_upward :
    (∀ c : Coin, (Coin.update c).bob_timer = c.bob_timer + 1) ∧
      ((Coin.update)^[600] (Coin.init 170 435 0)).rect.y = 425 - 230 ∧
      ((Coin.update)^[600] (Coin.init 170 435 0)).bob_timer = 600 := by
  refine ⟨fun c => rfl, ?_, ?_⟩ <;> decide

/-! ### C3 — health bounds at every observable point -/

/-- C3: the health invariant holds after construction and is preserved by
every per-tick `update`, by every `take_damage` call with nonnegative damage
(the game always passes 20), and by the fall-off-screen rule (which forces
`health := 0`). -/
theorem health_invariant_observable_points :
    (∀ x y : Int, healthInv (Player.init x y)) ∧
      (∀ (keys : Keys) (l : List Rect) (p : Player),
        healthInv p → healthInv (p.update keys l)) ∧
      (∀ (amount : Int) (p : Player), 0 ≤ amount →
        healthInv p → healthInv (p.take_damage amount)) ∧
      (∀ p : Player, healthInv p → healthInv { p with health := 0 }) := by
  refine ⟨?_, ?_, ?_, ?_⟩
  · intro x y
    refine ⟨?_, ?_, rfl⟩
    · show (0 : Int) ≤ 100
      norm_num
    · show (100 : Int) ≤ 100
      norm_num
  · intro keys l p h
    unfold healthInv at *
    rw [update_health, update_max_health]
    exact h
  · intro amount p ha h
    obtain ⟨h1, h2, h3⟩ := h
    unfold healthInv
    simp only [Player.take_damage]
    split_ifs
    all_goals simp_all
    all_goals omega
  · intro p h
    obtain ⟨h1, h2, h3⟩ := h
    exact ⟨le_refl 0, by simp only; omega, h3⟩

/-- C3 witness: the invariant theorem applied to the freshly spawned player
and one damage hit. -/
theorem health_invariant_observable_points_witness :
    healthInv (Player.init 60 490) ∧
      healthInv ((Player.init 60 490).take_damage 20) :=
  ⟨health_invariant_observable_points.1 60 490,
    health_invariant_observable_points.2.2.1 20 (Player.init 60 490)
      (by norm_num) (health_invariant_observable_points.1 60 490)⟩

/-! ### C4 — take_damage is a no-op inside the invincibility window -/

theorem resolveHorizontal_invincible (p : Player) (r : Rect) :
    (p.resolveHorizontal r).invincible_timer = p.invincible_timer := by
  unfold Player.resolveHorizontal; split_ifs <;> rfl

theorem resolveVertical_invincible (p : Player) (r : Rect) :
    (p.resolveVertical r).invincible_timer = p.invincible_timer := by
  unfold Player.resolveVertical; split_ifs <;> rfl

theorem move_and_collide_invincible (l : List Rect) (p : Player) :
    (p.move_and_collide l).invincible_timer = p.invincible_timer := by
  unfold Player.move_and_collide
  rw [foldl_fixed Player.invincible_timer Player.resolveVertical
      resolveVertical_invincible,
    foldl_fixed Player.invincible_timer Player.resolveHorizontal
      resolveHorizontal_invincible]

theorem handle_input_invincible (keys : Keys) (p : Player) :
    (p.handle_input keys).invincible_timer = p.invincible_timer := by
  simp only [Player.handle_input]; split_ifs <;> rfl

/-- The per-tick update decrements the invincibility window while positive
and leaves it alone otherwise. -/
theorem update_invincible (keys : Keys) (l : List Rect) (p : Player) :
    (p.update keys l).invincible_timer =
      if 0 < p.invincible_timer then p.invincible_timer - 1
      else p.invincible_timer := by
  simp only [Player.update]
  have hmc :
      (Player.move_and_collide l
          ((p.handle_input keys).apply_gravity)).invincible_timer =
        p.invincible_timer := by
    rw [move_and_collide_invincible]
    show ((p.handle_input keys).apply_gravity).invincible_timer =
      p.invincible_timer
    simp only [Player.apply_gravity]
    exact handle_input_invincible keys p
  split_ifs with h1 h2 h3
  all_goals simp_all

/-- Iterating the per-tick update `n` times, while the window does not hit
zero, subtracts exactly `n` from the invincibility timer. -/
theorem iterate_update_invincible (keys : Keys) (l : List Rect) :
    ∀ (n : Nat) (p : Player), (n : Int) ≤ p.invincible_timer →
      ((Player.update keys l)^[n] p).invincible_timer =
        p.invincible_timer - n := by
  intro n
  induction n with
  | zero => intro p _; simp
  | succ k ih =>
    intro p hp
    rw [Function.iterate_succ_apply, ih]
    · rw [update_invincible]
      rw [if_pos (by omega)]
      push_cast
      omega
    · rw [update_invincible, if_pos (by omega)]
      push_cast at hp ⊢
      omega

/-- Iterating the per-tick update never changes health. -/
theorem iterate_update_health (keys : Keys) (l : List Rect) :
    ∀ (n : Nat) (p : Player),
      ((Player.update keys l)^[n] p).health = p.health := by
  intro n
  induction n with
  | zero => intro p; rfl
  | succ k ih =>
    intro p
    rw [Function.iterate_succ_apply, ih, update_health]

/-- C4: `take_damage` is a complete no-op whenever the invincibility window
is open (so two calls inside one window change health at most once), and the
concrete scenario: a fresh player (health 100, window 0) hit for 20 ends at
health 80 with a 90-tick window; after 10 further ticks (any keys, any
platforms) the window reads 80 and a second 20-damage contact leaves health
at 80. -/
theorem take_damage_noop_in_window :
    (∀ (amount : Int) (p : Player), 0 < p.invincible_timer →
        p.take_damage amount = p) ∧
      (∀ (keys : Keys) (l : List Rect),
        ((Player.init 60 490).take_damage 20).health = 80 ∧
          ((Player.init 60 490).take_damage 20).invincible_timer = 90 ∧
          ((Player.update keys l)^[10]
              ((Player.init 60 490).take_damage 20)).invincible_timer = 80 ∧
          (((Player.update keys l)^[10]
              ((Player.init 60 490).take_damage 20)).take_damage 20).health
            = 80) := by
  have hnoop : ∀ (amount : Int) (p : Player), 0 < p.invincible_timer →
      p.take_damage amount = p := by
    intro amount p h
    unfold Player.take_damage
    rw [if_pos h]
  refine ⟨hnoop, ?_⟩
  intro keys l
  have h2 : ((Player.init 60 490).take_damage 20).invincible_timer = 90 := by
    decide
  have h3 : ((Player.update keys l)^[10]
      ((Player.init 60 490).take_damage 20)).invincible_timer = 80 := by
    rw [iterate_update_invincible keys l 10 _ (by rw [h2]; norm_num), h2]
    norm_num
  refine ⟨by decide, h2, h3, ?_⟩
  rw [hnoop 20 _ (by rw [h3]; norm_num), iterate_update_health]
  decide

/-- C4 witness: the no-op part applied at a concrete player with an open
window, plus the scenario instantiated with idle keys and no platforms. -/
theorem take_damage_noop_in_window_witness :
    0 < ({ Player.init 60 490 with invincible_timer := 42 } :
        Player).invincible_timer ∧
      ({ Player.init 60 490 with invincible_timer := 42 } :
          Player).take_damage 20 =
        { Player.init 60 490 with invincible_timer := 42 } ∧
      ((Player.update Keys.idle [])^[10]
          ((Player.init 60 490).take_damage 20)).invincible_timer = 80 :=
  ⟨by norm_num, take_damage_noop_in_window.1 20 _ (by norm_num),
    (take_damage_noop_in_window.2 Keys.idle []).2.2.1⟩

/-! ### C10 — health never increases within a run -/

theorem take_damage_health_le (amount : Int) (p : Player) (ha : 0 ≤ amount)
    (hh : 0 ≤ p.health) : (p.take_damage amount).health ≤ p.health := by
  simp only [Player.take_damage]
  split_ifs
  all_goals simp_all

theorem take_damage_health_nonneg (amount : Int) (p : Player)
    (h : 0 ≤ p.health) : 0 ≤ (p.take_damage amount).health := by
  simp only [Player.take_damage]
  split_ifs
  all_goals simp_all

/-- C10: the player is built with `health = max_health = 100`, and no
operation of a Playing tick (nor a non-Playing tick, which leaves the world
untouched) ever increases health: each tick's resulting health is at most the
previous tick's. -/
theorem health_never_increases :
    (∀ bobs : Nat → Nat, (build_level bobs).player.health = 100 ∧
        (build_level bobs).player.max_health = 100) ∧
      (∀ (keys : Keys) (w : World), 0 ≤ w.player.health →
        (tick keys w).player.health ≤ w.player.health) := by
  constructor
  · intro bobs; exact ⟨rfl, rfl⟩
  · intro keys w h
    unfold tick
    split_ifs with hs
    · unfold tickPlaying
      dsimp only
      have hq : (w.player.update keys w.platforms).health = w.player.health :=
        update_health keys w.platforms w.player
      split_ifs with h1 h2 h3
      · exact h
      · refine le_trans (take_damage_health_le 20 _ (by norm_num) ?_) ?_
        · dsimp only
          omega
        · dsimp only
          exact le_of_eq hq
      · exact h
      · dsimp only
        exact le_of_eq hq
    · exact le_refl _

/-- C10 witness: the monotonicity part applied to a concrete freshly built
world (the stagger seed is the constant 0). -/
theorem health_never_increases_witness :
    0 ≤ (build_level (fun _ => 0)).player.health ∧
      (tick Keys.idle (build_level (fun _ => 0))).player.health ≤
        (build_level (fun _ => 0)).player.health :=
  ⟨by norm_num [health_never_increases.1 (fun _ => 0)],
    health_never_increases.2 Keys.idle (build_level (fun _ => 0))
      (by norm_num [health_never_increases.1 (fun _ => 0)])⟩

/-! ### C9 — score is 10 per collected coin -/

theorem length_filter_partition {α : Type} (f : α → Bool) :
    ∀ l : List α,
      (l.filter f).length + (l.filter (fun a => !(f a))).length = l.length := by
  intro l
  induction l with
  | nil => rfl
  | cons a t ih =>
    by_cases h : f a = true <;> simp [List.filter_cons, h] <;> omega

/-- C9: a freshly built level satisfies `score = 10·(total − current)` (both
sides 0), every tick preserves it — several coins collected in one tick add
`10·k` exactly as `k` coins leave the set, and non-Playing ticks change
nothing — and the invariant forces the score to be a nonnegative multiple
of 10. -/
theorem score_counts_removed_coins :
    (∀ bobs : Nat → Nat, scoreInv (build_level bobs)) ∧
      (∀ (keys : Keys) (w : World), scoreInv w → scoreInv (tick keys w)) ∧
      (∀ w : World, scoreInv w →
        0 ≤ w.player.score ∧ (10 : Int) ∣ w.player.score) := by
  refine ⟨?_, ?_, ?_⟩
  · intro bobs
    constructor
    · exact le_of_eq rfl
    · show (0 : Int) = 10 * (((build_level bobs).total_coins : Int) -
          ((build_level bobs).coins.length : Int))
      have ht : (build_level bobs).total_coins =
          (build_level bobs).coins.length := rfl
      rw [ht, sub_self, mul_zero]
  · intro keys w h
    obtain ⟨hlen, hscore⟩ := h
    unfold tick
    split_ifs with hs
    · unfold tickPlaying scoreInv
      dsimp only
      have hsplit := length_filter_partition
        (fun c => (w.player.update keys w.platforms).rect.colliderect c.rect)
        (w.coins.map Coin.update)
      rw [List.length_map] at hsplit
      have hupd : (w.player.update keys w.platforms).score = w.player.score :=
        update_score keys w.platforms w.player
      constructor
      · omega
      · split_ifs with h1 h2 h3
        all_goals try dsimp only
        all_goals try rw [take_damage_score]
        all_goals try dsimp only
        all_goals rw [hupd, hscore]
        all_goals omega
    · exact ⟨hlen, hscore⟩
  · intro w h
    obtain ⟨hlen, hscore⟩ := h
    constructor
    · rw [hscore]; omega
    · exact ⟨_, hscore⟩

/-- C9 witness: the invariant at a concrete freshly built world and after one
tick of it. -/
theorem score_counts_removed_coins_witness :
    scoreInv (build_level (fun _ => 0)) ∧
      scoreInv (tick Keys.idle (build_level (fun _ => 0))) :=
  ⟨score_counts_removed_coins.1 (fun _ => 0),
    score_counts_removed_coins.2.1 Keys.idle (build_level (fun _ => 0))
      (score_counts_removed_coins.1 (fun _ => 0))⟩

/-! ### C2 — emptying the coin set and the Win transition -/

set_option maxRecDepth 8000 in
/-- C2, counterexample: a tick can empty the coin set and still not end in
Win.  In `lastCoinFatalWorld` the update collects the final coin (the win
branch fires), but the enemy contact in the same tick drops the player's
health from 20 to 0 and the death check, which runs after the win check,
overwrites the phase with GameOver. -/
theorem coins_empty_yet_game_over :
    (tick Keys.idle lastCoinFatalWorld).coins.length = 0 ∧
      (tick Keys.idle lastCoinFatalWorld).state = GameState.game_over ∧
      ¬ (tick Keys.idle lastCoinFatalWorld).state = GameState.win := by
  refine ⟨by decide, by decide, by decide⟩

/-- C2, amended: the built level does hold 13 coins, and on any Playing tick
that leaves the coin set empty the phase becomes Win that same tick —
provided the player is still alive at the end of the tick (the death check
runs last and otherwise overwrites Win with GameOver); the reported collected
count is then `total_coins`, i.e. 13/13 for the built level. -/
theorem coins_empty_gives_win_if_alive :
    (∀ bobs : Nat → Nat, (build_level bobs).coins.length = 13 ∧
        (build_level bobs).total_coins = 13) ∧
      (∀ (keys : Keys) (w : World), w.state = GameState.playing →
        (tick keys w).coins.length = 0 →
        0 < (tick keys w).player.health →
        (tick keys w).state = GameState.win ∧
          collectedCount (tick keys w) = w.total_coins) := by
  constructor
  · intro bobs; exact ⟨rfl, rfl⟩
  · intro keys w hs hc hh
    have htick : tick keys w = tickPlaying keys w := by
      unfold tick; rw [if_pos hs]
    rw [htick] at hc hh ⊢
    unfold tickPlaying at hc hh ⊢
    dsimp only at hc hh ⊢
    constructor
    · split_ifs at hh ⊢ <;>
        first
          | rfl
          | (exact absurd hc (by assumption))
          | (simp_all only [Player.is_dead, decide_eq_true_eq]; omega)
    · unfold collectedCount
      dsimp only
      rw [hc]
      exact Nat.sub_zero w.total_coins

set_option maxRecDepth 8000 in
/-- C2 witness: the amended theorem at `lastCoinAliveWorld` — the last coin
is collected, the player survives the enemy contact (health 100 → 80), the
phase becomes Win and the collected count equals the recorded total. -/
theorem coins_empty_gives_win_witness :
    (tick Keys.idle lastCoinAliveWorld).coins.length = 0 ∧
      0 < (tick Keys.idle lastCoinAliveWorld).player.health ∧
      (tick Keys.idle lastCoinAliveWorld).state = GameState.win ∧
      collectedCount (tick Keys.idle lastCoinAliveWorld) = 13 := by
  have hc : (tick Keys.idle lastCoinAliveWorld).coins.length = 0 := by decide
  have hh : 0 < (tick Keys.idle lastCoinAliveWorld).player.health := by decide
  have h := coins_empty_gives_win_if_alive.2 Keys.idle lastCoinAliveWorld
    rfl hc hh
  exact ⟨hc, hh, h.1, h.2⟩

/-! ### C5 — separation after move_and_collide -/

theorem Frac.lt_def (a b : Frac) : a < b ↔ a.num * b.den < b.num * a.den :=
  Iff.rfl

theorem colliderect_false_iff (a b : Rect) :
    a.colliderect b = false ↔
      ¬ (a.x < b.x + b.w ∧ b.x < a.x + a.w ∧
          a.y < b.y + b.h ∧ b.y < a.y + a.h) := by
  rw [← colliderect_iff, Bool.eq_false_iff]

theorem resolveHorizontal_id_of_no_overlap (p : Player) (plat : Rect)
    (h : p.rect.colliderect plat = false) : p.resolveHorizontal plat = p := by
  unfold Player.resolveHorizontal
  rw [if_neg (by simp [h])]

theorem resolveVertical_id_of_no_overlap (p : Player) (plat : Rect)
    (h : p.rect.colliderect plat = false) : p.resolveVertical plat = p := by
  unfold Player.resolveVertical
  rw [if_neg (by simp [h])]

/-- Horizontal resolution against an overlapping platform, with a nonzero
horizontal velocity, leaves the rectangle separated from the platform on the
x-axis. -/
theorem resolveHorizontal_x_sep (p : Player) (plat : Rect)
    (hc : p.rect.colliderect plat = true) (hv : p.vel_x.num ≠ 0) :
    plat.x + plat.w ≤ (p.resolveHorizontal plat).rect.x ∨
      (p.resolveHorizontal plat).rect.x + (p.resolveHorizontal plat).rect.w
        ≤ plat.x := by
  unfold Player.resolveHorizontal
  rw [if_pos hc]
  by_cases h1 : Frac.ofInt 0 < p.vel_x
  · rw [if_pos h1]
    right
    dsimp only
    omega
  · rw [if_neg h1]
    by_cases h2 : p.vel_x < Frac.ofInt 0
    · rw [if_pos h2]
      left
      dsimp only
      omega
    · exfalso
      rw [Frac.lt_def] at h1 h2
      dsimp only [Frac.ofInt] at h1 h2
      omega

/-- Vertical resolution against an overlapping platform, with a nonzero
vertical velocity, leaves the rectangles non-overlapping. -/
theorem resolveVertical_no_overlap (p : Player) (plat : Rect)
    (hc : p.rect.colliderect plat = true) (hv : p.vel_y.num ≠ 0) :
    ((p.resolveVertical plat).rect.colliderect plat) = false := by
  unfold Player.resolveVertical
  rw [if_pos hc]
  by_cases h1 : Frac.ofInt 0 < p.vel_y
  · rw [if_pos h1, colliderect_false_iff]
    dsimp only
    omega
  · rw [if_neg h1]
    by_cases h2 : p.vel_y < Frac.ofInt 0
    · rw [if_pos h2, colliderect_false_iff]
      dsimp only
      omega
    · exfalso
      rw [Frac.lt_def] at h1 h2
      dsimp only [Frac.ofInt] at h1 h2
      omega

theorem resolveVertical_rect_x (p : Player) (plat : Rect) :
    (p.resolveVertical plat).rect.x = p.rect.x := by
  unfold Player.resolveVertical; split_ifs <;> rfl

theorem resolveVertical_rect_w (p : Player) (plat : Rect) :
    (p.resolveVertical plat).rect.w = p.rect.w := by
  unfold Player.resolveVertical; split_ifs <;> rfl

theorem resolveHorizontal_vel_y (p : Player) (plat : Rect) :
    (p.resolveHorizontal plat).vel_y = p.vel_y := by
  unfold Player.resolveHorizontal; split_ifs <;> rfl

theorem resolveHorizontal_rect_num_zero (p : Player) (plat : Rect)
    (hv : p.vel_x.num = 0) : (p.resolveHorizontal plat).rect = p.rect := by
  unfold Player.resolveHorizontal
  split_ifs with h1 h2 h3
  · exfalso; rw [Frac.lt_def] at h2; dsimp only [Frac.ofInt] at h2; omega
  · exfalso; rw [Frac.lt_def] at h3; dsimp only [Frac.ofInt] at h3; omega
  · rfl
  · rfl

/-- The vertical half of `move_and_collide` against a single platform leaves
no overlap, provided that either the vertical velocity is nonzero, or the
incoming rectangle does not overlap the platform, or the rectangles are
already separated on the x-axis (which vertical motion cannot undo). -/
theorem vertical_phase_no_overlap (q : Player) (plat : Rect)
    (hB : q.vel_y.num ≠ 0 ∨ q.rect.colliderect plat = false ∨
      plat.x + plat.w ≤ q.rect.x ∨ q.rect.x + q.rect.w ≤ plat.x) :
    ((Player.resolveVertical
        { q with
          on_ground := false,
          rect := { q.rect with y := q.rect.y + q.vel_y.trunc } }
        plat).rect.colliderect plat) = false := by
  by_cases hsep : plat.x + plat.w ≤ q.rect.x ∨ q.rect.x + q.rect.w ≤ plat.x
  · rw [colliderect_false_iff]
    have hx := resolveVertical_rect_x
      { q with
        on_ground := false,
        rect := { q.rect with y := q.rect.y + q.vel_y.trunc } } plat
    have hw := resolveVertical_rect_w
      { q with
        on_ground := false,
        rect := { q.rect with y := q.rect.y + q.vel_y.trunc } } plat
    dsimp only at hx hw
    rw [hx, hw]
    omega
  · have hB' : q.vel_y.num ≠ 0 ∨ q.rect.colliderect plat = false := by
      rcases hB with h | h | h | h
      · exact Or.inl h
      · exact Or.inr h
      · exact absurd (Or.inl h) hsep
      · exact absurd (Or.inr h) hsep
    rcases Bool.eq_false_or_eq_true
        (({ q with
            on_ground := false,
            rect := { q.rect with y := q.rect.y + q.vel_y.trunc } } :
              Player).rect.colliderect plat) with hcy | hcy
    · by_cases hvy : q.vel_y.num = 0
      · exfalso
        rcases hB' with hvy' | hnc
        · exact hvy' hvy
        · have ht : q.vel_y.trunc = 0 := by
            unfold Frac.trunc; rw [hvy]; exact Int.zero_tdiv _
          have hr : ({ q with
              on_ground := false,
              rect := { q.rect with y := q.rect.y + q.vel_y.trunc } } :
                Player).rect = q.rect := by
            dsimp only
            rw [ht, add_zero]
          rw [hr, hnc] at hcy
          exact Bool.false_ne_true hcy
      · exact resolveVertical_no_overlap _ plat hcy hvy
    · rw [resolveVertical_id_of_no_overlap _ plat hcy]
      exact hcy

/-- C5, amended: against a single platform, `move_and_collide` does leave the
player's rectangle non-overlapping, provided the player is moving on some
axis or did not already overlap the platform (a stationary player already
embedded in a platform is not resolved at all); with several platforms the
property fails, because resolution against a later platform can leave a
residual overlap with an earlier-checked one. -/
theorem move_and_collide_separates_one_platform (p : Player) (plat : Rect)
    (h : p.vel_x.num ≠ 0 ∨ p.vel_y.num ≠ 0 ∨ p.rect.colliderect plat = false) :
    ((p.move_and_collide [plat]).rect.colliderect plat) = false := by
  unfold Player.move_and_collide
  simp only [List.foldl_cons, List.foldl_nil]
  rcases Bool.eq_false_or_eq_true
      (({ p with
          rect := { p.rect with x := p.rect.x + p.vel_x.trunc } } :
            Player).rect.colliderect plat) with hcx | hcx
  · by_cases hvx : p.vel_x.num = 0
    · have hrx : ({ p with
          rect := { p.rect with x := p.rect.x + p.vel_x.trunc } } :
            Player).rect = p.rect := by
        dsimp only
        have ht : p.vel_x.trunc = 0 := by
          unfold Frac.trunc; rw [hvx]; exact Int.zero_tdiv _
        rw [ht, add_zero]
      have hvy : p.vel_y.num ≠ 0 := by
        rcases h with h | h | h
        · exact absurd hvx h
        · exact h
        · rw [hrx, h] at hcx
          exact absurd hcx Bool.false_ne_true
      apply vertical_phase_no_overlap
      left
      rw [resolveHorizontal_vel_y]
      exact hvy
    · have hsep := resolveHorizontal_x_sep _ plat hcx (by dsimp only; exact hvx)
      apply vertical_phase_no_overlap
      right; right
      exact hsep
  · rw [resolveHorizontal_id_of_no_overlap _ plat hcx]
    apply vertical_phase_no_overlap
    right; left
    exact hcx

set_option maxRecDepth 2000 in
/-- C5, counterexample: with several platforms, the claim fails.  The player
(32×48 at the origin, 48-high platforms at its height) starts overlapping
nothing, moves right by 30 into both platforms' spans, is snapped back flush
against the first-checked platform (x 58…88) — and that snap-back leaves it
overlapping the second-checked platform (x 40…50), whose own resolution does
nothing because `vel_x` was already zeroed.  After `move_and_collide`
returns, the player still overlaps a platform of the list. -/
theorem move_and_collide_overlap_remains :
    ((Player.init 0 0).rect.colliderect { x := 58, y := 0, w := 30, h := 48 })
        = false ∧
      ((Player.init 0 0).rect.colliderect { x := 40, y := 0, w := 10, h := 48 })
        = false ∧
      ((({ Player.init 0 0 with vel_x := Frac.ofInt 30 } :
            Player).move_and_collide
          [{ x := 58, y := 0, w := 30, h := 48 },
           { x := 40, y := 0, w := 10, h := 48 }]).rect.colliderect
        { x := 40, y := 0, w := 10, h := 48 }) = true := by
  refine ⟨by decide, by decide, by decide⟩

/-- C5 witness: the amended theorem for a player walking right (velocity 4)
over the ground platform. -/
theorem move_and_collide_separates_witness :
    ({ Player.init 60 490 with vel_x := Frac.ofInt 4 } :
        Player).vel_x.num ≠ 0 ∧
      ((({ Player.init 60 490 with vel_x := Frac.ofInt 4 } :
            Player).move_and_collide
          [{ x := 0, y := 560, w := 800, h := 40 }]).rect.colliderect
        { x := 0, y := 560, w := 800, h := 40 }) = false :=
  ⟨by decide,
    move_and_collide_separates_one_platform _ _ (Or.inl (by decide))⟩

/-! ### C8 — enemy centres stay inside their patrol ranges -/

/-- What one enemy tick does to the patrol-relevant fields: the ground-snap
only moves `y`, so the bounds, width, velocity and `x` follow the
move-and-bounce logic alone. -/
theorem enemy_update_spec (plats : List Rect) (e : Enemy) :
    (e.update plats).patrol_min = e.patrol_min ∧
      (e.update plats).patrol_max = e.patrol_max ∧
      (e.update plats).rect.w = e.rect.w ∧
      (e.update plats).vel_x =
        (if e.rect.x + e.vel_x ≤ e.patrol_min ∨
            e.rect.x + e.vel_x + e.rect.w ≥ e.patrol_max then
          -e.vel_x else e.vel_x) ∧
      (e.update plats).rect.x =
        (if e.rect.x + e.vel_x ≤ e.patrol_min ∨
            e.rect.x + e.vel_x + e.rect.w ≥ e.patrol_max then
          e.rect.x + e.vel_x + -e.vel_x * 2 else e.rect.x + e.vel_x) := by
  unfold Enemy.update
  dsimp only
  split_ifs with hb
  · cases hf : List.find? (fun plat =>
        Rect.colliderect
          { x := e.rect.x + e.vel_x + -e.vel_x * 2,
            y := e.rect.y + 1, w := e.rect.w, h := e.rect.h } plat) plats <;>
      simp [hf]
  · cases hf : List.find? (fun plat =>
        Rect.colliderect
          { x := e.rect.x + e.vel_x,
            y := e.rect.y + 1, w := e.rect.w, h := e.rect.h } plat) plats <;>
      simp [hf]

/-- One enemy tick preserves the patrol invariant: away from the bounds the
enemy moves 2 inward or outward but stays strictly inside; at a bound the
velocity flips and the 2×-velocity nudge lands it strictly inside again
because the range is wider than 40. -/
theorem enemyPatrolInv_update (plats : List Rect) (e : Enemy)
    (h : enemyPatrolInv e) : enemyPatrolInv (e.update plats) := by
  obtain ⟨hv, hw, hgap, hlo, hhi⟩ := h
  obtain ⟨h1, h2, h3, h4, h5⟩ := enemy_update_spec plats e
  unfold enemyPatrolInv
  rw [h1, h2, h3, h4, h5, hw]
  rcases hv with hv | hv <;> split_ifs with hc <;>
    refine ⟨?_, rfl, ?_, ?_, ?_⟩ <;> omega

theorem enemyPatrolInv_iterate (plats : List Rect) (e : Enemy)
    (h : enemyPatrolInv e) (n : Nat) :
    enemyPatrolInv ((Enemy.update plats)^[n] e) := by
  induction n with
  | zero => exact h
  | succ k ih =>
    rw [Function.iterate_succ_apply']
    exact enemyPatrolInv_update plats _ ih

theorem enemyPatrolInv_center (e : Enemy) (h : enemyPatrolInv e) :
    e.patrol_min ≤ e.rect.centerx ∧ e.rect.centerx ≤ e.patrol_max := by
  obtain ⟨hv, hw, hgap, hlo, hhi⟩ := h
  unfold Rect.centerx
  rw [hw]
  have h36 : Int.fdiv 36 2 = 18 := by decide
  rw [h36]
  omega

/-- C8: every enemy of the built level starts strictly inside its patrol
range with speed 2 and width 36, and after any number of enemy ticks (over
any platform list — the ground snap only moves `y`) its horizontal centre
`x + 36 // 2` stays within `[patrol_min, patrol_max]`; the bounce nudge never
escapes the range because every built range is wider than 40 pixels. -/
theorem level_enemy_center_in_patrol :
    ∀ bobs : Nat → Nat, ∀ e ∈ (build_level bobs).enemies,
      ∀ (plats : List Rect) (n : Nat),
        ((Enemy.update plats)^[n] e).patrol_min ≤
            ((Enemy.update plats)^[n] e).rect.centerx ∧
          ((Enemy.update plats)^[n] e).rect.centerx ≤
            ((Enemy.update plats)^[n] e).patrol_max := by
  intro bobs e he plats n
  have hinv : enemyPatrolInv e := by
    have hl : (build_level bobs).enemies =
        [Enemy.init 110 518 50 260, Enemy.init 400 518 300 700,
         Enemy.init 283 338 280 400, Enemy.init 571 308 570 700,
         Enemy.init 203 238 200 300] := rfl
    rw [hl] at he
    simp only [List.mem_cons, List.not_mem_nil, or_false] at he
    rcases he with rfl | rfl | rfl | rfl | rfl <;>
      exact ⟨Or.inl rfl, rfl, by decide, by decide, by decide⟩
  exact enemyPatrolInv_center _ (enemyPatrolInv_iterate plats e hinv n)

/-- C8 witness: the first built enemy (patrol 50…260), run for 100 ticks over
the built platforms. -/
theorem level_enemy_center_in_patrol_witness :
    Enemy.init 110 518 50 260 ∈ (build_level (fun _ => 0)).enemies ∧
      ((Enemy.update levelPlatforms)^[100]
          (Enemy.init 110 518 50 260)).patrol_min ≤
        ((Enemy.update levelPlatforms)^[100]
          (Enemy.init 110 518 50 260)).rect.centerx ∧
      ((Enemy.update levelPlatforms)^[100]
          (Enemy.init 110 518 50 260)).rect.centerx ≤
        ((Enemy.update levelPlatforms)^[100]
          (Enemy.init 110 518 50 260)).patrol_max := by
  have hm : Enemy.init 110 518 50 260 ∈ (build_level (fun _ => 0)).enemies :=
    by decide
  have h := level_enemy_center_in_patrol (fun _ => 0)
    (Enemy.init 110 518 50 260) hm levelPlatforms 100
  exact ⟨hm, h.1, h.2⟩

end PixelQuest
